import Mathlib

/-!
Verification of the training-launcher logic in
`swift/ui/llm_train/llm_train.py` (class `LLMTrain`): the argument
resolver `train`, the command builder, and the streaming process runner
`train_studio`, shallowly embedded over an explicit model of the Python
values the code manipulates.  External collaborators (the UI toolkit, the
`RLHFArguments` validation constructor, `json.loads`, the filesystem and
the torch device probes) are parameters of the embedding.
-/

namespace LLMTrain

/-- A Python value as it occurs in this UI module: form values are strings,
booleans or lists of strings; type coercion produces ints, floats and
booleans; `None` occurs via `dict.get` misses and `value or None`.
Python floats arising here come from decimal form strings, so they are
modelled as exact rationals. -/
inductive PyVal where
  | vStr : String → PyVal
  | vInt : Int → PyVal
  | vFloat : Rat → PyVal
  | vBool : Bool → PyVal
  | vList : List String → PyVal
  | vNone : PyVal
  deriving DecidableEq, Repr, Inhabited

/-- Python truthiness (`bool(value)`) for the values above. -/
def PyVal.truthy : PyVal → Bool
  | .vStr s => !(s == "")
  | .vInt n => !(n == 0)
  | .vFloat q => !(q == 0)
  | .vBool b => b
  | .vList l => !(l.isEmpty)
  | .vNone => false

def PyVal.isList : PyVal → Bool
  | .vList _ => true
  | _ => false

/-- Numeric view used by Python `==`: ints, floats and bools compare by
numeric value (`True == 1`, `1 == 1.0`). -/
def PyVal.toNum? : PyVal → Option Rat
  | .vInt n => some (n : Rat)
  | .vFloat q => some q
  | .vBool b => some (if b then 1 else 0)
  | _ => none

/-- Python `==` on the modelled values: cross-type numeric equality for
ints/floats/bools, structural equality otherwise (values of unrelated
types are unequal). -/
def pyEq (a b : PyVal) : Bool :=
  match a.toNum?, b.toNum? with
  | some x, some y => x == y
  | _, _ => a == b

/-- A Python `dict` with string keys, as an insertion-ordered association
list.  All dicts in the modelled code are built by item assignment and
`update`, so keys are unique and iteration order is insertion order. -/
abbrev Dict := List (String × PyVal)

/-- `d.get(k)` returning `none` on a miss. -/
def dget? (d : Dict) (k : String) : Option PyVal :=
  match d with
  | [] => none
  | p :: rest => if p.1 = k then some p.2 else dget? rest k

/-- `k in d`. -/
def hasKeyB (d : Dict) (k : String) : Bool :=
  (dget? d k).isSome

/-- `d[k] = v`: updates the entry in place if the key is present
(preserving its position, as Python dicts do), appends otherwise. -/
def dinsert (d : Dict) (k : String) (v : PyVal) : Dict :=
  match d with
  | [] => [(k, v)]
  | p :: rest => if p.1 = k then (k, v) :: rest else p :: dinsert rest k v

/-- `d.pop(k)` / `del d[k]` (keys are unique in every dict the code
builds, so removing every occurrence coincides with removing the entry). -/
def derase (d : Dict) (k : String) : Dict :=
  match d with
  | [] => []
  | p :: rest => if p.1 = k then derase rest k else p :: derase rest k

/-- `d.update(m)`: item-assign every entry of `m` into `d` in order. -/
def dupdate (d m : Dict) : Dict :=
  m.foldl (fun acc p => dinsert acc p.1 p.2) d

/-- Lookup in the `kwargs_is_list` bookkeeping dict
(`kwargs_is_list.get(key, False)`). -/
def bget (d : List (String × Bool)) (k : String) : Bool :=
  match d with
  | [] => false
  | p :: rest => if p.1 = k then p.2 else bget rest k

def binsert (d : List (String × Bool)) (k : String) (v : Bool) :
    List (String × Bool) :=
  match d with
  | [] => [(k, v)]
  | p :: rest => if p.1 = k then (k, v) :: rest else p :: binsert rest k v

/- ## String helpers modelling the Python string operations used -/

/-- The characters Python `str.strip()` removes (ASCII whitespace, the
range occurring in this UI's inputs). -/
def pyWS (c : Char) : Bool :=
  c == ' ' || c == '\t' || c == '\n' || c == '\x0d' ||
  c == '\x0b' || c == '\x0c'

/-- `s.strip()`. -/
def pyStrip (s : String) : String :=
  ⟨((s.data.dropWhile pyWS).reverse.dropWhile pyWS).reverse⟩

/-- Truthiness of `s.strip()`: `s` has at least one non-whitespace
character. -/
def hasNonWS (s : String) : Bool :=
  s.data.any (fun c => !(pyWS c))

/-- `s.split(' ')` on character lists: splits at every space, keeping
empty fragments (Python list semantics for a one-character separator). -/
def splitChAux : List Char → List Char → List (List Char)
  | [], acc => [acc.reverse]
  | c :: rest, acc =>
    if c = ' ' then acc.reverse :: splitChAux rest []
    else splitChAux rest (c :: acc)

/-- `s.split(' ')`. -/
def mySplitSpace (s : String) : List String :=
  (splitChAux s.data []).map (fun l => ⟨l⟩)

/-- `' '.join(ts)`. -/
def joinSpace : List String → String
  | [] => ""
  | [t] => t
  | t :: ts => t ++ " " ++ joinSpace ts

/-- `','.join(ts)`. -/
def joinComma : List String → String
  | [] => ""
  | [t] => t
  | t :: ts => t ++ "," ++ joinComma ts

/-- The command builder's re-splitting of a space-joined list-valued
field: `[arg for arg in s.split(' ') if arg.strip()]`
(line 350 of `llm_train.py`). -/
def resplitTokens (s : String) : List String :=
  (mySplitSpace s).filter hasNonWS

/-- A token containing no space separator. -/
def spaceFree (s : String) : Bool :=
  s.data.all (fun c => !(c == ' '))

/-- Substring test (`needle in haystack` on Python strings). -/
def listHasPre (a b : List Char) : Bool :=
  match a, b with
  | [], _ => true
  | _ :: _, [] => false
  | x :: xs, y :: ys => x == y && listHasPre xs ys

def listHasSub (needle hay : List Char) : Bool :=
  match hay with
  | [] => listHasPre needle []
  | _ :: rest => listHasPre needle hay || listHasSub needle rest

def strContains (hay needle : String) : Bool :=
  listHasSub needle.data hay.data

/-- Lower-casing as used by `value.lower()` on the ASCII form values. -/
def myToLower (s : String) : String :=
  ⟨s.data.map Char.toLower⟩

/- ## Type coercion (lines 293-298 of `llm_train.py`) -/

def digitsToNat (l : List Char) : Nat :=
  l.foldl (fun acc c => acc * 10 + (c.toNat - 48)) 0

def stripSign (l : List Char) : List Char :=
  match l with
  | c :: rest => if c == '-' || c == '+' then rest else c :: rest
  | [] => []

/-- Modelled from the spec: `cls.int_regex` lives in the UI base class,
which is not part of this fragment; per the spec a raw string "matching an
integer pattern becomes an integer": an optional sign followed by one or
more digits, matched in full. -/
def isIntString (s : String) : Bool :=
  let body := stripSign s.data
  !body.isEmpty && body.all Char.isDigit

/-- `int(s)` for a string accepted by `isIntString`. -/
def parseIntStr (s : String) : Int :=
  match s.data with
  | '-' :: rest => -(digitsToNat rest : Int)
  | '+' :: rest => (digitsToNat rest : Int)
  | l => (digitsToNat l : Int)

/-- Modelled from the spec: `cls.float_regex` lives in the UI base class,
which is not part of this fragment; per the spec a raw string "matching a
float pattern becomes a float": an optional sign, then digits with exactly
one decimal point and at least one digit, matched in full. -/
def isFloatString (s : String) : Bool :=
  let body := stripSign s.data
  match body.span Char.isDigit with
  | (intPart, rest) =>
    match rest with
    | '.' :: fracPart =>
      fracPart.all Char.isDigit && (!intPart.isEmpty || !fracPart.isEmpty)
    | _ => false

/-- `float(s)` for a decimal string, as an exact rational. -/
def parseDecRat (s : String) : Rat :=
  let signed := match s.data with
    | '-' :: _ => true
    | _ => false
  let body := stripSign s.data
  let intPart := body.takeWhile Char.isDigit
  let rest := body.dropWhile Char.isDigit
  let fracPart := match rest with
    | '.' :: f => f
    | _ => []
  let mag : Rat :=
    (digitsToNat intPart : Rat) + (digitsToNat fracPart : Rat) / ((10 : Rat) ^ fracPart.length)
  if signed then -mag else mag

/-- Modelled from the spec: `cls.bool_regex` lives in the UI base class,
which is not part of this fragment; per the spec a raw string "matching a
boolean pattern (case-insensitive true/false)". -/
def isBoolString (s : String) : Bool :=
  myToLower s == "true" || myToLower s == "false"

/-- The coercion chain of lines 293-298: full-match against the integer,
float and boolean patterns in that order; the boolean branch is
`True if value.lower() == 'true' else False`.  Non-string values are
untouched (`isinstance(value, str)` guards every branch). -/
def coerceValue (v : PyVal) : PyVal :=
  match v with
  | .vStr s =>
    if isIntString s then .vInt (parseIntStr s)
    else if isFloatString s then .vFloat (parseDecRat s)
    else if isBoolString s then .vBool (myToLower s == "true")
    else .vStr s
  | v => v

/- ## The embedding environment: external collaborators and class data -/

/-- The result of `json.loads` on the free-form overrides text, as the
resolver consumes it: a JSON object (a dict), some non-object JSON value,
or a `JSONDecodeError`. -/
inductive JsonRes where
  | objRes : Dict → JsonRes
  | nonObjRes : JsonRes
  | parseFail : JsonRes
  deriving DecidableEq, Repr

/-- The validated arguments object returned by the external
`RLHFArguments` constructor (the fields this module reads). -/
structure SftArgs where
  output_dir : String
  logging_dir : String
  model : String
  deriving DecidableEq, Repr, Inhabited

/-- External collaborators and class-level data of `LLMTrain`:
`cls.group`, `cls.lang`, `sys.platform`, `cls.quote`, the defaults map
from the `RLHFArguments` dataclass, the ordered form-field keys, the
per-element `is_list` attribute, `json.loads`, `os.path.exists` on
strings, the `RLHFArguments` constructor (raising = `.error msg`), the
torch device probes, and `MAX_LOG_LINES`. -/
structure Env where
  group : String
  lang : String
  platform : String
  quote : String
  defaultArgs : Dict
  keys : List String
  isListAttr : String → Bool
  jsonParse : String → JsonRes
  pathExists : String → Bool
  ctor : Dict → Except String SftArgs
  npuAvailable : Bool
  cudaAvailable : Bool
  maxLogLines : Nat

/-- The errors `train` can signal: the user-facing `gr.Error` (raised only
for the missing-dataset alert), and the uncaught Python exceptions the
code can raise (`TypeError`, `KeyError`, `AttributeError`, `ValueError`,
`AssertionError`, and a propagated `RLHFArguments` failure). -/
inductive TrainError where
  | grError : String → TrainError
  | typeError : String → TrainError
  | keyError : String → TrainError
  | attrError : TrainError
  | valueError : String → TrainError
  | assertError : TrainError
  | ctorError : String → TrainError
  deriving DecidableEq, Repr

def TrainError.isGr : TrainError → Bool
  | .grError _ => true
  | _ => false

/-- `cls.locale('dataset_alert', cls.lang)['value']` from the module's
`locale_dict`. -/
def datasetAlertMsg (lang : String) : String :=
  if lang == "zh" then "请选择或填入一个数据集" else "Please input or select a dataset"

/-- The fixed ignore-set of line 279. -/
def ignoreElements : List String :=
  ["logging_dir", "more_params", "train_stage", "envs"]

/- ## The resolver loop (lines 291-311) -/

/-- Accumulator for the `more_params` JSON state: untouched (`{}`),
parsed to an object, or parsed to a non-object (which makes the later
`kwargs.update(more_params)` raise `TypeError`). -/
inductive MPAcc where
  | emptyMP : MPAcc
  | objMP : Dict → MPAcc
  | badMP : MPAcc
  deriving DecidableEq, Repr

structure LoopState where
  kwargs : Dict
  klist : List (String × Bool)
  other : Dict
  moreParams : MPAcc
  mpc : String
  trainStage : PyVal
  deriving DecidableEq, Repr

/-- `' '.join(value)` normalization applied when an explicit override is
stored (line 300). -/
def normListVal (v : PyVal) : PyVal :=
  match v with
  | .vList l => .vStr (joinSpace l)
  | v => v

/-- The explicit-override condition of line 299:
`key not in ignore_elements and key in default_args and compare_value != value and value`
(on the coerced value). -/
def explicitCond (env : Env) (key : String) (v : PyVal) : Bool :=
  !(ignoreElements.contains key) && (dget? env.defaultArgs key).isSome &&
    !pyEq ((dget? env.defaultArgs key).getD .vNone) v && v.truthy

/-- The bucketing of lines 299-303 for one coerced value. -/
def bucketStep (env : Env) (st : LoopState) (key : String) (v : PyVal) : LoopState :=
  if explicitCond env key v then
    { st with kwargs := dinsert st.kwargs key (normListVal v),
              klist := binsert st.klist key (v.isList || env.isListAttr key) }
  else
    { st with other := dinsert st.other key v }

/-- The `more_params` handling of lines 304-308: `json.loads` on the
(truthy) value, keeping the parsed object, or the raw text as the literal
command suffix on a `JSONDecodeError` (the only exception the
`except (JSONDecodeError or TypeError)` clause actually catches);
`json.loads` on a truthy non-string raises an uncaught `TypeError`. -/
def mpStep (env : Env) (st : LoopState) (key : String) (v : PyVal) :
    Except TrainError LoopState :=
  if key = "more_params" ∧ v.truthy = true then
    match v with
    | .vStr s =>
      match env.jsonParse s with
      | .objRes m => .ok { st with moreParams := .objMP m }
      | .nonObjRes => .ok { st with moreParams := .badMP }
      | .parseFail => .ok { st with mpc := s }
    | _ => .error (.typeError "json.loads")
  else .ok st

/-- The `train_stage` capture of lines 310-311. -/
def tsStep (st : LoopState) (key : String) (v : PyVal) : LoopState :=
  if key = "train_stage" then { st with trainStage := v } else st

/-- One iteration of the resolver loop over `zip(keys, args)`
(lines 291-311): coerce, bucket, handle `more_params`, capture
`train_stage`. -/
def loopStep (env : Env) (st : LoopState) (kv : String × PyVal) :
    Except TrainError LoopState :=
  let key := kv.1
  let v := coerceValue kv.2
  match mpStep env (bucketStep env st key v) key v with
  | .error e => .error e
  | .ok st3 => .ok (tsStep st3 key v)

/-- The loop's initial accumulators and the group-dependent initial
`train_stage` (lines 281-290). -/
def loopInit (env : Env) : LoopState :=
  { kwargs := [], klist := [], other := [], moreParams := .emptyMP, mpc := "",
    trainStage := .vStr (if env.group == "llm_grpo" then "rlhf" else "sft") }

/-- The full resolver loop over `zip(keys, args)` (lines 279-311). -/
def loopResolve (env : Env) (args : List PyVal) : Except TrainError LoopState :=
  (env.keys.zip args).foldlM (loopStep env) (loopInit env)

/- ## The post-loop phases of `train` -/

/-- `kwargs.update(more_params)` (line 313); updating with a non-dict
raises `TypeError`. -/
def mergePhase (st : LoopState) : Except TrainError Dict :=
  match st.moreParams with
  | .emptyMP => .ok st.kwargs
  | .objMP m => .ok (dupdate st.kwargs m)
  | .badMP => .error (.typeError "kwargs.update")

/-- Lines 317-319: `model = kwargs.get('model')`;
`os.path.exists(model)` raises `TypeError` on `None` (CPython's
`genericpath.exists` catches only `OSError` and `ValueError`, and
`os.stat(None)` raises `TypeError`); an integer is treated as a (closed)
file descriptor, so `exists` is `False`; other non-string values raise.
On a hit, `kwargs['resume_from_checkpoint'] = kwargs.pop('model')`.
Returns the new kwargs and the local `model` variable. -/
def checkpointPhase (env : Env) (d : Dict) : Except TrainError (Dict × PyVal) :=
  let mv := (dget? d "model").getD .vNone
  match mv with
  | .vStr s =>
    if env.pathExists s && env.pathExists (s ++ "/args.json") then
      .ok (dinsert (derase d "model") "resume_from_checkpoint" (.vStr s), mv)
    else .ok (d, mv)
  | .vInt _ => .ok (d, mv)
  | _ => .error (.typeError "os.path.exists")

/-- `str(value)` as used by the f-strings of the command builder. -/
def pyStr (v : PyVal) : String :=
  match v with
  | .vStr s => s
  | .vInt n => toString n
  | .vFloat q => toString q.num ++ "/" ++ toString q.den
  | .vBool b => if b then "True" else "False"
  | .vList l => "[" ++ joinComma (l.map (fun s => "\x27" ++ s ++ "\x27")) ++ "]"
  | .vNone => "None"

/-- Lines 322-323: a truthy `deepspeed` override is popped from `kwargs`
and appended to the free-form command suffix as
`' --deepspeed {value} '`. -/
def deepspeedPhase (d : Dict) (mpc : String) : Dict × String :=
  match dget? d "deepspeed" with
  | some v =>
    if v.truthy then (derase d "deepspeed", mpc ++ " --deepspeed " ++ pyStr v ++ " ")
    else (d, mpc)
  | none => (d, mpc)

/-- The per-entry transformation of line 327:
`value.split(' ') if kwargs_is_list.get(key, False) and isinstance(value, str) else value`. -/
def ctorMapVal (klist : List (String × Bool)) (k : String) (v : PyVal) : PyVal :=
  match v with
  | .vStr s => if bget klist k then .vList (mySplitSpace s) else .vStr s
  | v => v

/-- The keyword map actually passed to `RLHFArguments` (lines 326-329):
values of keys flagged in `kwargs_is_list` that are strings are split on
spaces. -/
def ctorInput (d : Dict) (klist : List (String × Bool)) : Dict :=
  d.map (fun p => (p.1, ctorMapVal klist p.1 p.2))

/-- The message fragment the dirty-fix retry matches (line 331). -/
def modelSignal : String := "Please set --model"

/-- Lines 324-339: call the constructor; on failure, if the message
contains the "Please set --model" signal, do
`kwargs['model'] = kwargs.pop('resume_from_checkpoint')` (a missing key
raises `KeyError`) and retry exactly once, any second failure
propagating; without the signal the failure propagates unchanged. -/
def ctorPhase (env : Env) (d : Dict) (klist : List (String × Bool)) :
    Except TrainError (Dict × SftArgs) :=
  match env.ctor (ctorInput d klist) with
  | .ok sft => .ok (d, sft)
  | .error msg =>
    if strContains msg modelSignal then
      match dget? d "resume_from_checkpoint" with
      | none => .error (.keyError "resume_from_checkpoint")
      | some v =>
        let d2 := dinsert (derase d "resume_from_checkpoint") "model" v
        match env.ctor (ctorInput d2 klist) with
        | .ok sft => .ok (d2, sft)
        | .error m2 => .error (.ctorError m2)
    else .error (.ctorError msg)

/-- The `--key value` serialization loop plus suffixes (lines 340-356).
A key flagged in `kwargs_is_list` whose value is not a list is re-split
with `resplitTokens`; `.split` on a non-string raises `AttributeError`. -/
def buildParams (env : Env) (d : Dict) (klist : List (String × Bool))
    (mpc : String) (sft : SftArgs) : Except TrainError String :=
  let base :=
    if env.group == "llm_grpo" && !(env.platform == "win32") then
      "--rlhf_type " ++ env.quote ++ "grpo" ++ env.quote ++ " "
    else ""
  let sep := env.quote ++ " " ++ env.quote
  let step := fun (acc : String) (p : String × PyVal) =>
    match p.2 with
    | .vList l =>
      Except.ok (acc ++ "--" ++ p.1 ++ " " ++ env.quote ++
        String.intercalate sep l ++ env.quote ++ " ")
    | v =>
      if bget klist p.1 then
        match v with
        | .vStr s =>
          Except.ok (acc ++ "--" ++ p.1 ++ " " ++ env.quote ++
            String.intercalate sep (resplitTokens s) ++ env.quote ++ " ")
        | _ => Except.error TrainError.attrError
      else
        Except.ok (acc ++ "--" ++ p.1 ++ " " ++ env.quote ++ pyStr v ++ env.quote ++ " ")
  match d.foldlM step base with
  | .error e => .error e
  | .ok flags =>
    .ok (flags ++ mpc ++ " " ++
      "--add_version False --output_dir " ++ sft.output_dir ++
      " --logging_dir " ++ sft.logging_dir ++ " --ignore_args_error True")

/-- `int(value)` on a modelled value: strings parse as (stripped) signed
integers or raise `ValueError`; floats truncate toward zero; bools are
0/1; other values raise `TypeError`. -/
def pyToInt (v : PyVal) : Except TrainError Int :=
  match v with
  | .vInt n => .ok n
  | .vBool b => .ok (if b then 1 else 0)
  | .vFloat q => .ok (if 0 ≤ q then q.floor else q.ceil)
  | .vStr s =>
    let t := pyStrip s
    if isIntString t then .ok (parseIntStr t) else .error (.valueError s)
  | _ => .error (.typeError "int()")

/-- Python iteration over the `gpu_id` value: lists iterate their
elements, strings iterate their characters, other values raise. -/
def pyIter : PyVal → Option (List String)
  | .vList l => some l
  | .vStr s => some (s.data.map Char.toString)
  | _ => none

/-- The assertion of line 365:
`assert (len(devices) == 1 or 'cpu' not in devices)`. -/
def deviceAssertOk (devices : List String) : Bool :=
  devices.length == 1 || !(devices.contains "cpu")

/-- The DDP block of lines 362-364: when `use_ddp` is truthy, `ddp_num`
must convert to a positive int (assertion), producing the
`NPROC_PER_NODE` prefix. -/
def ddpParamOf (other : Dict) (useDdpV : PyVal) : Except TrainError String :=
  if useDdpV.truthy then
    match dget? other "ddp_num" with
    | none => .error (.keyError "ddp_num")
    | some ddpNumV =>
      match pyToInt ddpNumV with
      | .error e => .error e
      | .ok n => if 0 < n then .ok ("NPROC_PER_NODE=" ++ toString n) else .error .assertError
  else .ok ""

/-- Lines 357-365: read `gpu_id`/`envs`/`use_ddp`/`ddp_num` from the
"other" bucket (a missing key raises `KeyError`), `envs or ''` then
`.strip()` (non-string raises `AttributeError`), drop falsy device
entries, the DDP block, then the mixed-device assertion.  Returns the
filtered device list, the DDP prefix and the stripped env text. -/
def devicePhase (other : Dict) :
    Except TrainError (List String × String × String) :=
  match dget? other "gpu_id" with
  | none => .error (.keyError "gpu_id")
  | some devicesV =>
    match dget? other "envs" with
    | none => .error (.keyError "envs")
    | some envsV =>
      match (if envsV.truthy then envsV else .vStr "") with
      | .vStr es =>
        let envsS := pyStrip es
        match pyIter devicesV with
        | none => .error (.typeError "iter")
        | some devsL =>
          let devices := devsL.filter (fun d => !(d == ""))
          match dget? other "use_ddp" with
          | none => .error (.keyError "use_ddp")
          | some useDdpV =>
            match ddpParamOf other useDdpV with
            | .error e => .error e
            | .ok ddpParam =>
              if deviceAssertOk devices then .ok (devices, ddpParam, envsS)
              else .error .assertError
      | _ => .error .attrError

/-- Lines 366-374: the device-visibility environment assignment. -/
def cudaParamOf (env : Env) (gpus : String) : String :=
  if !(gpus == "cpu") then
    if env.npuAvailable then "ASCEND_RT_VISIBLE_DEVICES=" ++ gpus
    else if env.cudaAvailable then "CUDA_VISIBLE_DEVICES=" ++ gpus
    else ""
  else ""

/-- Lines 377-387: the `set X && `-chained environment prefix used on
Windows. -/
def winEnvPrefix (cudaParam ddpParam envsStr : String) : String :=
  (if !(cudaParam == "") then "set " ++ cudaParam ++ " && " else "") ++
  (if !(ddpParam == "") then "set " ++ ddpParam ++ " && " else "") ++
  (if !(envsStr == "") then
    (((mySplitSpace envsStr).map pyStrip).filter (fun e => !(e == ""))).foldl
      (fun a e => a ++ "set " ++ e ++ " && ") ""
  else envsStr)

/-- Lines 376-390: the platform-specific final command string. -/
def buildCommand (env : Env) (cudaParam ddpParam envsStr cmdStage params logFile : String) :
    String :=
  if env.platform == "win32" then
    winEnvPrefix cudaParam ddpParam envsStr ++ "start /b swift sft " ++ params ++
      " > " ++ logFile ++ " 2>&1"
  else
    cudaParam ++ " " ++ ddpParam ++ " " ++ envsStr ++ " nohup swift " ++ cmdStage ++
      " " ++ params ++ " > " ++ logFile ++ " 2>&1 &"

/-- The keys admitted into the per-model cache record besides the
dataclass arguments (line 395). -/
def recordExtraKeys : List String :=
  ["more_params", "train_stage", "use_ddp", "ddp_num", "gpu_id", "envs"]

/-- Lines 392-397: when the local `model` value is truthy, build the
cache record from the raw submitted values (`value or None`). -/
def recordPhase (env : Env) (args : List PyVal) (modelVal : PyVal) :
    Option (PyVal × Dict) :=
  if modelVal.truthy then
    some (modelVal,
      (env.keys.zip args).foldl
        (fun acc kv =>
          if (dget? env.defaultArgs kv.1).isSome || recordExtraKeys.contains kv.1 then
            dinsert acc kv.1 (if kv.2.truthy then kv.2 else .vNone)
          else acc)
        [])
  else none

/-- What `train` returns (line 398), plus the cache-record side effect of
`cls.save_cache` made explicit. -/
structure TrainResult where
  run_command : String
  sft_args : SftArgs
  other_kwargs : Dict
  saved : Option (PyVal × Dict)
  deriving DecidableEq, Repr

/-- `LLMTrain.train` (lines 277-398): the resolver loop, the
`more_params` merge, the dataset validation (the only `gr.Error` raise),
checkpoint detection, the deepspeed pop, the validated-constructor call
with its one-shot retry, the flag serialization, the device/DDP section
and the final command string. -/
def train (env : Env) (args : List PyVal) : Except TrainError TrainResult :=
  match loopResolve env args with
  | .error e => .error e
  | .ok st =>
    match mergePhase st with
    | .error e => .error e
    | .ok d =>
      if !(hasKeyB d "dataset") && !(hasKeyB d "custom_train_dataset_path") then
        .error (.grError (datasetAlertMsg env.lang))
      else
        match checkpointPhase env d with
        | .error e => .error e
        | .ok (d2, modelVal) =>
          let dsp := deepspeedPhase d2 st.mpc
          match ctorPhase env dsp.1 st.klist with
          | .error e => .error e
          | .ok (d4, sft) =>
            match buildParams env d4 st.klist dsp.2 sft with
            | .error e => .error e
            | .ok params =>
              match devicePhase st.other with
              | .error e => .error e
              | .ok (devices, ddpParam, envsStr) =>
                let gpus := joinComma devices
                let cudaParam := cudaParamOf env gpus
                let logFile := sft.logging_dir ++ "/run.log"
                let cmdStage := pyStr st.trainStage
                let runCmd := buildCommand env cudaParam ddpParam envsStr cmdStage params logFile
                .ok { run_command := runCmd, sft_args := sft, other_kwargs := st.other,
                      saved := recordPhase env args modelVal }

/- ## The process runners (lines 400-426) -/

/-- One incremental yield of `train_studio`: the joined log-buffer text
and the command string (the auxiliary `Runtime.plot` data is an external
collaborator and is not modelled). -/
structure Update where
  text : String
  cmd : String
  deriving DecidableEq, Repr

/-- `collections.deque(maxlen=n).append`: append on the right, dropping
from the left when the bound is exceeded. -/
def dequePush (n : Nat) (buf : List String) (x : String) : List String :=
  let b := buf ++ [x]
  if n < b.length then b.drop (b.length - n) else b

/-- `iter(process.stdout.readline, b'')`: split the child's combined
output after every newline, also yielding a trailing chunk with no
newline. -/
def readLinesAux : List Char → List Char → List (List Char)
  | [], [] => []
  | [], acc => [acc.reverse]
  | c :: rest, acc =>
    if c = '\n' then (c :: acc).reverse :: readLinesAux rest []
    else readLinesAux rest (c :: acc)

def readLines (s : String) : List String :=
  (readLinesAux s.data []).map (fun l => ⟨l⟩)

/-- The streaming loop of lines 406-410: append each line to the bounded
buffer and yield `'\n'.join(lines)` together with the command string. -/
def streamUpdates (n : Nat) (ls : List String) (cmd : String) : List Update :=
  (ls.foldl
    (fun (st : List String × List Update) line =>
      let buf := dequePush n st.1 line
      (buf, st.2 ++ [{ text := String.intercalate "\n" buf, cmd := cmd }]))
    ([], [])).2

/-- The static dry-run message of lines 413-414 (two adjacent string
literals, concatenated). -/
def dryrunMsg : String :=
  "Current is dryrun mode so you can only view the training cmd, please duplicate this space to " ++
    "do training or use with inference."

/-- `LLMTrain.train_studio` (lines 400-415): run the resolver, then in
non-dry-run mode spawn the command and yield one update per line read
from the child's combined output (passed in as `childOutput`); in dry-run
mode yield the single static message and spawn nothing. -/
def train_studio (env : Env) (args : List PyVal) (childOutput : String) :
    Except TrainError (List Update) :=
  match train env args with
  | .error e => .error e
  | .ok res =>
    match dget? res.other_kwargs "dry_run" with
    | none => .error (.keyError "dry_run")
    | some dryV =>
      if !dryV.truthy then
        .ok (streamUpdates env.maxLogLines (readLines childOutput) res.run_command)
      else
        .ok [{ text := dryrunMsg, cmd := res.run_command }]

/-- `LLMTrain.train_local` (lines 417-426): run the resolver and, unless
dry-run is set, hand the command to the OS shell (the returned flag
records whether `os.system` is invoked). -/
def train_local (env : Env) (args : List PyVal) :
    Except TrainError (String × String × Bool) :=
  match train env args with
  | .error e => .error e
  | .ok res =>
    match dget? res.other_kwargs "dry_run" with
    | none => .error (.keyError "dry_run")
    | some dryV => .ok (res.run_command, res.sft_args.logging_dir, !dryV.truthy)

/- ## Concrete instantiations used to exercise the model -/

/-- Result extraction with a fallback, used to name the value inside a
known-successful `Except` computation. -/
def okOr {ε α : Type} (x : Except ε α) (d : α) : α :=
  match x with
  | .ok v => v
  | .error _ => d

/-- The state after one loop step, with the pre-step state as fallback. -/
def stepOut (env : Env) (st : LoopState) (kv : String × PyVal) : LoopState :=
  match loopStep env st kv with
  | .ok s => s
  | .error _ => st

/-- A small concrete form layout: the ordered field keys of a
submission. -/
def keys0 : List String :=
  ["model", "dataset", "train_stage", "more_params", "gpu_id", "envs",
   "use_ddp", "ddp_num", "dry_run", "deepspeed", "learning_rate", "logging_dir"]

/-- Concrete defaults map for the dataclass-backed fields of `keys0`. -/
def defaults0 : Dict :=
  [("model", .vNone), ("dataset", .vNone), ("deepspeed", .vNone),
   ("learning_rate", .vNone), ("logging_dir", .vNone)]

/-- One concrete validated-arguments object. -/
def sft0 : SftArgs :=
  { output_dir := "/out", logging_dir := "/log", model := "m" }

/-- A concrete environment: POSIX platform, English locale, CUDA
available, a free-form parser that fails on the literal `not-json` and
otherwise yields a one-entry object, a constructor that always succeeds,
and a line-buffer bound of 2. -/
def env0 : Env :=
  { group := "llm_train", lang := "en", platform := "linux", quote := "\x27",
    defaultArgs := defaults0, keys := keys0,
    isListAttr := fun k => k == "dataset",
    jsonParse := fun s => if s == "not-json" then .parseFail else .objRes [("lr", .vInt 7)],
    pathExists := fun _ => false,
    ctor := fun _ => .ok sft0,
    npuAvailable := false, cudaAvailable := true, maxLogLines := 2 }

/-- A submission for `keys0` that resolves successfully: a model, a
dataset, one GPU, no DDP, not a dry run. -/
def args0 : List PyVal :=
  [.vStr "m", .vStr "ds", .vStr "sft", .vStr "", .vList ["0"], .vStr "",
   .vStr "false", .vStr "2", .vBool false, .vStr "", .vStr "", .vStr ""]

/-- Like `args0` but with an empty dataset field: the merged overrides
contain neither dataset key. -/
def argsNoDataset : List PyVal :=
  [.vStr "m", .vStr "", .vStr "sft", .vStr "", .vList ["0"], .vStr "",
   .vStr "false", .vStr "2", .vBool false, .vStr "", .vStr "", .vStr ""]

/-- Like `args0` but with an empty model field: a dataset is selected yet
the merged overrides contain no `model` key. -/
def argsNoModel : List PyVal :=
  [.vStr "", .vStr "ds", .vStr "sft", .vStr "", .vList ["0"], .vStr "",
   .vStr "false", .vStr "2", .vBool false, .vStr "", .vStr "", .vStr ""]

/-- Like `args0` but with the free-form overrides text `not-json`, which
`env0.jsonParse` rejects. -/
def argsNotJson : List PyVal :=
  [.vStr "m", .vStr "ds", .vStr "sft", .vStr "not-json", .vList ["0"], .vStr "",
   .vStr "false", .vStr "2", .vBool false, .vStr "", .vStr "", .vStr ""]

/-- Like `args0` but with a truthy deepspeed field. -/
def argsDeepspeed : List PyVal :=
  [.vStr "m", .vStr "ds", .vStr "sft", .vStr "", .vList ["0"], .vStr "",
   .vStr "false", .vStr "2", .vBool false, .vStr "zero2", .vStr "", .vStr ""]

/-- An environment whose constructor demands a `model` key, failing with
the "Please set --model" signal otherwise. -/
def envC6 : Env :=
  { env0 with
    ctor := fun d =>
      if hasKeyB d "model" then .ok sft0
      else .error "Please set --model or --resume_from_checkpoint" }

/-- A kwargs map holding only a checkpoint path. -/
def dC6 : Dict := [("resume_from_checkpoint", .vStr "/ckpt")]

/- ## Dictionary lemmas -/

lemma dget?_dinsert_self (d : Dict) (k : String) (v : PyVal) :
    dget? (dinsert d k v) k = some v := by
  induction d with
  | nil => simp [dinsert, dget?]
  | cons p rest ih =>
    by_cases h : p.1 = k
    · simp [dinsert, h, dget?]
    · simp [dinsert, h, dget?, ih]

lemma dget?_dinsert_ne (d : Dict) (k0 k : String) (v0 : PyVal) (h : ¬ k0 = k) :
    dget? (dinsert d k0 v0) k = dget? d k := by
  induction d with
  | nil => simp [dinsert, dget?, h]
  | cons p rest ih =>
    simp only [dinsert]
    by_cases h1 : p.1 = k0
    · rw [if_pos h1]
      have h2 : ¬ p.1 = k := by rw [h1]; exact h
      simp [dget?, h, h2]
    · rw [if_neg h1]
      by_cases h2 : p.1 = k
      · simp [dget?, h2]
      · simp [dget?, h2, ih]

lemma dget?_derase_self (d : Dict) (k : String) : dget? (derase d k) k = none := by
  induction d with
  | nil => simp [derase, dget?]
  | cons p rest ih =>
    by_cases h : p.1 = k
    · simpa [derase, h] using ih
    · simpa [derase, dget?, h] using ih

lemma dget?_derase_ne (d : Dict) (k0 k : String) (h : ¬ k0 = k) :
    dget? (derase d k0) k = dget? d k := by
  induction d with
  | nil => simp [derase, dget?]
  | cons p rest ih =>
    simp only [derase]
    by_cases h1 : p.1 = k0
    · have h2 : ¬ p.1 = k := by rw [h1]; exact h
      rw [if_pos h1]
      simp [dget?, h2, ih]
    · rw [if_neg h1]
      by_cases h2 : p.1 = k
      · simp [dget?, h2]
      · simp [dget?, h2, ih]

lemma mem_keys_of_hasKeyB (d : Dict) (k : String) (h : hasKeyB d k = true) :
    k ∈ d.map Prod.fst := by
  induction d with
  | nil => simp [hasKeyB, dget?] at h
  | cons p rest ih =>
    by_cases hp : p.1 = k
    · simp [hp]
    · simp only [hasKeyB, dget?] at h
      rw [if_neg hp] at h
      exact List.mem_cons_of_mem _ (ih h)

lemma dget?_dupdate (d m : Dict) (k : String) (hm : (m.map Prod.fst).Nodup) :
    dget? (dupdate d m) k = if hasKeyB m k then dget? m k else dget? d k := by
  induction m generalizing d with
  | nil => simp [dupdate, hasKeyB, dget?]
  | cons p rest ih =>
    have hnd : (rest.map Prod.fst).Nodup := (List.nodup_cons.mp hm).2
    have hni : p.1 ∉ rest.map Prod.fst := (List.nodup_cons.mp hm).1
    have step : dupdate d (p :: rest) = dupdate (dinsert d p.1 p.2) rest := by
      simp [dupdate]
    rw [step, ih _ hnd]
    by_cases hk : hasKeyB rest k = true
    · have hpk : ¬ p.1 = k := fun he => hni (he ▸ mem_keys_of_hasKeyB rest k hk)
      rw [if_pos hk]
      have hmk : hasKeyB (p :: rest) k = true := by
        simp only [hasKeyB, dget?] at hk ⊢
        rw [if_neg hpk]
        exact hk
      rw [if_pos hmk]
      simp only [dget?]
      rw [if_neg hpk]
    · rw [if_neg hk]
      by_cases hpk : p.1 = k
      · subst hpk
        have hmk : hasKeyB (p :: rest) p.1 = true := by
          simp [hasKeyB, dget?]
        rw [if_pos hmk, dget?_dinsert_self]
        simp [dget?]
      · have hmk : ¬ hasKeyB (p :: rest) k = true := by
          simp only [hasKeyB, dget?]
          rw [if_neg hpk]
          simpa [hasKeyB] using hk
        rw [if_neg hmk, dget?_dinsert_ne d p.1 k p.2 hpk]

lemma dget?_ctorInput (d : Dict) (klist : List (String × Bool)) (k : String) :
    dget? (ctorInput d klist) k = (dget? d k).map (ctorMapVal klist k) := by
  induction d with
  | nil => simp [ctorInput, dget?]
  | cons p rest ih =>
    by_cases hp : p.1 = k
    · subst hp
      simp [ctorInput, dget?]
    · simp only [ctorInput, List.map_cons, dget?] at ih ⊢
      rw [if_neg hp, if_neg hp]
      exact ih

/- ## Step lemmas -/

lemma mpStep_fields (env : Env) (st : LoopState) (key : String) (v : PyVal)
    (st3 : LoopState) (h : mpStep env st key v = .ok st3) :
    st3.kwargs = st.kwargs ∧ st3.other = st.other ∧ st3.klist = st.klist ∧
      st3.trainStage = st.trainStage := by
  simp only [mpStep] at h
  repeat' split at h
  all_goals first
    | (cases h; exact ⟨rfl, rfl, rfl, rfl⟩)
    | (exact absurd h (by simp))

lemma tsStep_fields (st : LoopState) (key : String) (v : PyVal) :
    (tsStep st key v).kwargs = st.kwargs ∧ (tsStep st key v).other = st.other ∧
      (tsStep st key v).klist = st.klist ∧ (tsStep st key v).mpc = st.mpc := by
  simp only [tsStep]
  split <;> exact ⟨rfl, rfl, rfl, rfl⟩

/- ## Claim theorems -/

/-- C3: For every raw string form value, the resolver's coercion is by
priority: a full integer-pattern match becomes that integer; otherwise a
full float-pattern match becomes that float; otherwise a boolean-pattern
match (case-insensitive) becomes `True` exactly when the string
lower-cases to `"true"` and `False` otherwise; any other string is left
unchanged. -/
theorem coercion_priority_spec (s : String) :
    (isIntString s = true → coerceValue (.vStr s) = .vInt (parseIntStr s)) ∧
    (isIntString s = false → isFloatString s = true →
      coerceValue (.vStr s) = .vFloat (parseDecRat s)) ∧
    (isIntString s = false → isFloatString s = false → isBoolString s = true →
      coerceValue (.vStr s) = .vBool (myToLower s == "true")) ∧
    (isIntString s = false → isFloatString s = false → isBoolString s = false →
      coerceValue (.vStr s) = .vStr s) := by
  refine ⟨fun h1 => ?_, fun h1 h2 => ?_, fun h1 h2 h3 => ?_, fun h1 h2 h3 => ?_⟩
  · simp [coerceValue, h1]
  · simp [coerceValue, h1, h2]
  · simp [coerceValue, h1, h2, h3]
  · simp [coerceValue, h1, h2, h3]

/-- Witness for C3 at the spec's four examples: `"42"`, `"3.5"`, `"TRUE"`
and `"abc"`. -/
theorem coercion_priority_spec_witness :
    coerceValue (.vStr "42") = .vInt 42 ∧
    coerceValue (.vStr "3.5") = .vFloat ((7 : Rat) / 2) ∧
    coerceValue (.vStr "TRUE") = .vBool true ∧
    coerceValue (.vStr "abc") = .vStr "abc" := by
  refine ⟨?_, ?_, ?_, ?_⟩
  · rw [(coercion_priority_spec "42").1 (by decide)]
    decide
  · rw [(coercion_priority_spec "3.5").2.1 (by decide) (by decide)]
    have h1 : parseDecRat "3.5" = ((3 : Nat) : Rat) + ((5 : Nat) : Rat) / 10 ^ (1 : Nat) := by
      rfl
    rw [h1]
    norm_num
  · rw [(coercion_priority_spec "TRUE").2.2.1 (by decide) (by decide) (by decide)]
    decide
  · exact (coercion_priority_spec "abc").2.2.2 (by decide) (by decide) (by decide)

/-- C4: a (field, value) pair is stored in the explicit-override map iff
the field is outside the ignore-set, is present in the defaults map, its
coerced value differs (Python `!=`) from the default and is truthy
(`explicitCond` is exactly the condition of line 299); in every other
case the pair goes to the `other` non-CLI bucket. -/
theorem explicit_override_bucketing (env : Env) (st : LoopState) (key : String)
    (rawv : PyVal) (st2 : LoopState)
    (h : loopStep env st (key, rawv) = .ok st2) :
    (explicitCond env key (coerceValue rawv) = true →
      st2.kwargs = dinsert st.kwargs key (normListVal (coerceValue rawv)) ∧
      st2.other = st.other) ∧
    (explicitCond env key (coerceValue rawv) = false →
      st2.kwargs = st.kwargs ∧
      st2.other = dinsert st.other key (coerceValue rawv)) := by
  simp only [loopStep] at h
  cases hmp : mpStep env (bucketStep env st key (coerceValue rawv)) key (coerceValue rawv) with
  | error e =>
    rw [hmp] at h
    exact absurd h (by simp)
  | ok st3 =>
    simp only [hmp] at h
    injection h with h2
    subst h2
    obtain ⟨hk3, ho3, _, _⟩ :=
      mpStep_fields env (bucketStep env st key (coerceValue rawv)) key (coerceValue rawv) st3 hmp
    obtain ⟨hkt, hot, _, _⟩ := tsStep_fields st3 key (coerceValue rawv)
    constructor <;> intro hc
    · refine ⟨?_, ?_⟩
      · rw [hkt, hk3]
        simp [bucketStep, hc]
      · rw [hot, ho3]
        simp [bucketStep, hc]
    · refine ⟨?_, ?_⟩
      · rw [hkt, hk3]
        simp [bucketStep, hc]
      · rw [hot, ho3]
        simp [bucketStep, hc]

/-- Witness for C4 at the concrete submission pair `("model", "m")` on the
initial loop state. -/
theorem explicit_override_bucketing_witness :
    (stepOut env0 (loopInit env0) ("model", .vStr "m")).kwargs =
      dinsert (loopInit env0).kwargs "model" (normListVal (coerceValue (.vStr "m"))) ∧
    (stepOut env0 (loopInit env0) ("model", .vStr "m")).other = (loopInit env0).other :=
  (explicit_override_bucketing env0 (loopInit env0) "model" (.vStr "m")
      (stepOut env0 (loopInit env0) ("model", .vStr "m")) (by rfl)).1 (by decide)

/- ## Split/join lemmas and the list round-trip (C8) -/

lemma splitChAux_append (t : List Char) (h : ∀ c ∈ t, ¬ c = ' ') :
    ∀ (rest acc : List Char), splitChAux (t ++ rest) acc = splitChAux rest (t.reverse ++ acc) := by
  induction t with
  | nil => intro rest acc; simp
  | cons c cs ih =>
    intro rest acc
    have hc : ¬ c = ' ' := h c (List.mem_cons_self c cs)
    have hstep : (c :: cs) ++ rest = c :: (cs ++ rest) := rfl
    rw [hstep]
    simp only [splitChAux, if_neg hc]
    rw [ih (fun x hx => h x (List.mem_cons_of_mem c hx)) rest (c :: acc)]
    simp

lemma mySplitSpace_single (t : String) (h : spaceFree t = true) :
    mySplitSpace t = [t] := by
  have hns : ∀ c ∈ t.data, ¬ c = ' ' := by
    intro c hcm
    have := List.all_eq_true.mp h c hcm
    simpa using this
  have h1 : splitChAux t.data [] = [t.data] := by
    have h2 := splitChAux_append t.data hns [] []
    simp only [List.append_nil, splitChAux, List.reverse_reverse] at h2
    exact h2
  simp [mySplitSpace, h1]

lemma mySplitSpace_join_cons (t : String) (rest : String) (h : spaceFree t = true) :
    mySplitSpace (t ++ " " ++ rest) = t :: mySplitSpace rest := by
  have hns : ∀ c ∈ t.data, ¬ c = ' ' := by
    intro c hcm
    have := List.all_eq_true.mp h c hcm
    simpa using this
  have hdata : (t ++ " " ++ rest).data = t.data ++ (' ' :: rest.data) := by
    rw [String.data_append, String.data_append]
    simp
  have h1 : splitChAux (t.data ++ (' ' :: rest.data)) [] =
      t.data :: splitChAux rest.data [] := by
    rw [splitChAux_append t.data hns (' ' :: rest.data) []]
    simp [splitChAux]
  simp [mySplitSpace, hdata, h1]

/-- C8 counterexample: the tab-only token is non-empty and contains no
space, yet the command builder's re-split drops it (its `strip()` is
falsy), so split-after-join is not the identity on all lists of non-empty
space-free tokens. -/
theorem list_roundtrip_counterexample :
    spaceFree "\t" = true ∧ ¬ "\t" = "" ∧
    ¬ resplitTokens (joinSpace ["\t"]) = ["\t"] := by
  refine ⟨by decide, by decide, by decide⟩

/-- C8 (amended): split-after-join is the identity on lists of space-free
tokens that each contain at least one non-whitespace character (so each
survives the `arg.strip()` filter of line 350). -/
theorem list_roundtrip (ts : List String)
    (h : ∀ t ∈ ts, spaceFree t = true ∧ hasNonWS t = true) :
    resplitTokens (joinSpace ts) = ts := by
  induction ts with
  | nil => decide
  | cons t rest ih =>
    obtain ⟨hsf, hnws⟩ := h t (List.mem_cons_self t rest)
    cases rest with
    | nil =>
      simp only [joinSpace, resplitTokens]
      rw [mySplitSpace_single t hsf]
      simp [hnws]
    | cons t2 rest2 =>
      have hjoin : joinSpace (t :: t2 :: rest2) = t ++ " " ++ joinSpace (t2 :: rest2) := rfl
      simp only [resplitTokens, hjoin]
      rw [mySplitSpace_join_cons t (joinSpace (t2 :: rest2)) hsf]
      simp only [List.filter_cons, hnws, if_true]
      have := ih (fun x hx => h x (List.mem_cons_of_mem t hx))
      simp only [resplitTokens] at this
      rw [this]

/-- Witness for the amended C8 on the two-token list `["a", "bc"]`. -/
theorem list_roundtrip_witness :
    resplitTokens (joinSpace ["a", "bc"]) = ["a", "bc"] :=
  list_roundtrip ["a", "bc"] (by decide)

/- ## Streaming-buffer behavior (C2) -/

/-- C2 counterexample: in streaming mode with line-buffer bound 2, a
child emitting the three lines `a`, `b`, `c` yields three updates, but
the last update's buffered text is not `"b\nc"`: `readline` keeps each
trailing newline, so the joined buffer is `"b\n\nc\n"`. -/
theorem stream_last_counterexample :
    train_studio env0 args0 "a\nb\nc\n" =
      .ok (okOr (train_studio env0 args0 "a\nb\nc\n") []) ∧
    (okOr (train_studio env0 args0 "a\nb\nc\n") []).length = 3 ∧
    ¬ ((okOr (train_studio env0 args0 "a\nb\nc\n") []).map Update.text).getLast?
        = some "b\nc" := by
  refine ⟨rfl, by decide, by decide⟩

/-- C2 (amended): in streaming (non-dry-run) mode with line-buffer bound 2
and the child emitting exactly the lines `a`, `b`, `c`, the runner yields
exactly three updates, one after each line, and the buffered text of the
last update is `"b\n\nc\n"` (the newline-terminated last two lines
joined by `'\n'`). -/
theorem stream_last_amended :
    train_studio env0 args0 "a\nb\nc\n" =
      .ok (okOr (train_studio env0 args0 "a\nb\nc\n") []) ∧
    (okOr (train_studio env0 args0 "a\nb\nc\n") []).length = 3 ∧
    ((okOr (train_studio env0 args0 "a\nb\nc\n") []).map Update.text).getLast?
        = some "b\n\nc\n" := by
  refine ⟨rfl, by decide, by decide⟩

/- ## The constructor retry policy (C6) -/

/-- C6: when the external argument-validation constructor fails with a
message containing the "Please set --model" signal, the resolver moves
the value stored under `resume_from_checkpoint` back to `model` and
retries exactly once, the retry's outcome (success or propagated failure)
becoming the phase's result; when the message lacks the signal, the
failure propagates unchanged and uncaught. -/
theorem ctor_retry_policy (env : Env) (d : Dict) (klist : List (String × Bool))
    (msg : String) (h : env.ctor (ctorInput d klist) = .error msg) :
    (strContains msg modelSignal = true →
      ∀ v, dget? d "resume_from_checkpoint" = some v →
        ctorPhase env d klist =
          (match env.ctor (ctorInput
              (dinsert (derase d "resume_from_checkpoint") "model" v) klist) with
           | .ok sft => .ok (dinsert (derase d "resume_from_checkpoint") "model" v, sft)
           | .error m2 => .error (.ctorError m2))) ∧
    (strContains msg modelSignal = false →
      ctorPhase env d klist = .error (.ctorError msg)) := by
  constructor
  · intro hs v hv
    simp [ctorPhase, h, hs, hv]
  · intro hs
    simp [ctorPhase, h, hs]

/-- Witness for C6: a constructor demanding a `model` key succeeds on
retry after the checkpoint value moves back under `model`. -/
theorem ctor_retry_policy_witness :
    ctorPhase envC6 dC6 [] = .ok ([("model", .vStr "/ckpt")], sft0) := by
  have h := (ctor_retry_policy envC6 dC6 []
      "Please set --model or --resume_from_checkpoint" (by rfl)).1 (by decide)
      (.vStr "/ckpt") (by decide)
  rw [h]
  rfl

/- ## The deepspeed pop (C10) -/

/-- C10: a truthy `deepspeed` override is removed from the kwargs map
before the constructor input is formed — so it is never type-validated
and never appears in the `--key value` serialization loop, which iterates
the same map — and the literal text ` --deepspeed <value> ` is appended
to the free-form command suffix instead. -/
theorem deepspeed_pop (d : Dict) (mpc : String) (v : PyVal)
    (h1 : dget? d "deepspeed" = some v) (h2 : v.truthy = true) :
    deepspeedPhase d mpc =
      (derase d "deepspeed", mpc ++ " --deepspeed " ++ pyStr v ++ " ") ∧
    dget? (derase d "deepspeed") "deepspeed" = none ∧
    (∀ klist, dget? (ctorInput (derase d "deepspeed") klist) "deepspeed" = none) ∧
    (∀ (env : Env) (klist : List (String × Bool)) (d4 : Dict) (sft : SftArgs),
      ctorPhase env (derase d "deepspeed") klist = .ok (d4, sft) →
      dget? d4 "deepspeed" = none) := by
  refine ⟨by simp [deepspeedPhase, h1, h2], dget?_derase_self d "deepspeed", ?_, ?_⟩
  · intro klist
    rw [dget?_ctorInput]
    rw [dget?_derase_self d "deepspeed"]
    rfl
  · intro env klist d4 sft h
    simp only [ctorPhase] at h
    split at h
    · cases h
      exact dget?_derase_self d "deepspeed"
    · split at h
      · split at h
        · cases h
        · split at h
          · cases h
            rw [dget?_dinsert_ne _ _ _ _ (by decide),
              dget?_derase_ne _ _ _ (by decide),
              dget?_derase_self d "deepspeed"]
          · cases h
      · cases h

/-- Witness for C10 on a two-entry kwargs map with `deepspeed = "zero2"`. -/
theorem deepspeed_pop_witness :
    deepspeedPhase [("dataset", .vStr "ds"), ("deepspeed", .vStr "zero2")] "" =
      ([("dataset", .vStr "ds")], " --deepspeed zero2 ") ∧
    dget? (derase [("dataset", .vStr "ds"), ("deepspeed", .vStr "zero2")] "deepspeed")
      "deepspeed" = none := by
  have h := deepspeed_pop [("dataset", .vStr "ds"), ("deepspeed", .vStr "zero2")] ""
    (.vStr "zero2") (by decide) (by decide)
  exact ⟨h.1.trans (by decide), h.2.1⟩

/- ## Error-shape lemmas: only the dataset check raises `gr.Error` -/

lemma checkpointPhase_no_gr (env : Env) (d : Dict) (e : TrainError)
    (h : checkpointPhase env d = .error e) : e.isGr = false := by
  simp only [checkpointPhase] at h
  repeat' split at h
  all_goals first
    | (cases h; rfl)
    | (cases h)

lemma ctorPhase_no_gr (env : Env) (d : Dict) (klist : List (String × Bool))
    (e : TrainError) (h : ctorPhase env d klist = .error e) : e.isGr = false := by
  simp only [ctorPhase] at h
  repeat' split at h
  all_goals first
    | (cases h; rfl)
    | (cases h)

lemma foldlM_error_shape {α β : Type} (f : β → α → Except TrainError β)
    (hf : ∀ b a e, f b a = .error e → TrainError.isGr e = false) :
    ∀ (l : List α) (b : β) (e : TrainError), l.foldlM f b = .error e → e.isGr = false := by
  intro l
  induction l with
  | nil =>
    intro b e h
    change Except.ok b = Except.error e at h
    cases h
  | cons a as ih =>
    intro b e h
    rw [List.foldlM_cons] at h
    cases hfa : f b a with
    | error e2 =>
      rw [hfa] at h
      change Except.error e2 = Except.error e at h
      cases h
      exact hf b a _ hfa
    | ok b2 =>
      rw [hfa] at h
      change List.foldlM f b2 as = Except.error e at h
      exact ih b2 e h

lemma buildParams_no_gr (env : Env) (d : Dict) (klist : List (String × Bool))
    (mpc : String) (sft : SftArgs) (e : TrainError)
    (h : buildParams env d klist mpc sft = .error e) : e.isGr = false := by
  simp only [buildParams] at h
  split at h
  · rename_i heq
    cases h
    refine foldlM_error_shape _ ?_ d _ _ heq
    intro b a e2 hs
    simp only at hs
    repeat' split at hs
    all_goals first
      | (cases hs; rfl)
      | (cases hs)
  · cases h

lemma pyToInt_no_gr (v : PyVal) (e : TrainError) (h : pyToInt v = .error e) :
    e.isGr = false := by
  simp only [pyToInt] at h
  repeat' split at h
  all_goals first
    | (cases h; rfl)
    | (cases h)

lemma ddpParamOf_no_gr (other : Dict) (useDdpV : PyVal) (e : TrainError)
    (h : ddpParamOf other useDdpV = .error e) : e.isGr = false := by
  simp only [ddpParamOf] at h
  repeat' split at h
  all_goals first
    | (cases h; rfl)
    | (cases h; rename_i heq; exact pyToInt_no_gr _ _ heq)
    | (cases h)

lemma devicePhase_no_gr (other : Dict) (e : TrainError)
    (h : devicePhase other = .error e) : e.isGr = false := by
  simp only [devicePhase] at h
  repeat' split at h
  all_goals first
    | (cases h; rfl)
    | (cases h; rename_i heq; exact ddpParamOf_no_gr _ _ _ heq)
    | (cases h)

/- ## The dataset validation gate (C1) and its TypeError shadow (C9) -/

/-- C1: given a submission whose resolver loop and free-form merge
succeed, if the merged overrides contain neither `dataset` nor
`custom_train_dataset_path` then `train` raises exactly the user-facing
dataset alert (`gr.Error`), aborting before any command is built; and if
either key is present, no dataset-alert `gr.Error` is ever raised (the
line-315 raise is the only `gr.Error` in the resolver). -/
theorem dataset_validation (env : Env) (args : List PyVal) (st : LoopState)
    (d : Dict) (h1 : loopResolve env args = .ok st) (h2 : mergePhase st = .ok d) :
    ((hasKeyB d "dataset" = false ∧ hasKeyB d "custom_train_dataset_path" = false) →
      train env args = .error (.grError (datasetAlertMsg env.lang))) ∧
    ((hasKeyB d "dataset" = true ∨ hasKeyB d "custom_train_dataset_path" = true) →
      ∀ m, ¬ train env args = .error (.grError m)) := by
  constructor
  · rintro ⟨ha, hb⟩
    simp [train, h1, h2, ha, hb]
  · intro hd m hcon
    have hds : (!hasKeyB d "dataset" && !hasKeyB d "custom_train_dataset_path") = false := by
      rcases hd with h | h <;> simp [h]
    simp only [train, h1, h2, hds, Bool.false_eq_true, if_false] at hcon
    cases h3 : checkpointPhase env d with
    | error e =>
      simp only [h3] at hcon
      cases hcon
      have := checkpointPhase_no_gr env d _ h3
      simp [TrainError.isGr] at this
    | ok p =>
      obtain ⟨d2, modelVal⟩ := p
      simp only [h3] at hcon
      cases h4 : ctorPhase env (deepspeedPhase d2 st.mpc).1 st.klist with
      | error e =>
        simp only [h4] at hcon
        cases hcon
        have := ctorPhase_no_gr env _ _ _ h4
        simp [TrainError.isGr] at this
      | ok q =>
        obtain ⟨d4, sft⟩ := q
        simp only [h4] at hcon
        cases h5 : buildParams env d4 st.klist (deepspeedPhase d2 st.mpc).2 sft with
        | error e =>
          simp only [h5] at hcon
          cases hcon
          have := buildParams_no_gr env _ _ _ _ _ h5
          simp [TrainError.isGr] at this
        | ok params =>
          simp only [h5] at hcon
          cases h6 : devicePhase st.other with
          | error e =>
            simp only [h6] at hcon
            cases hcon
            have := devicePhase_no_gr _ _ h6
            simp [TrainError.isGr] at this
          | ok r =>
            obtain ⟨devices, ddpParam, envsStr⟩ := r
            simp only [h6] at hcon
            cases hcon

/-- Witness for C1: a submission with an empty dataset field aborts with
the (English) dataset alert. -/
theorem dataset_validation_witness :
    train env0 argsNoDataset = .error (.grError "Please input or select a dataset") :=
  (dataset_validation env0 argsNoDataset
      (okOr (loopResolve env0 argsNoDataset) (loopInit env0))
      (okOr (mergePhase (okOr (loopResolve env0 argsNoDataset) (loopInit env0))) [])
      (by rfl) (by rfl)).1 ⟨by decide, by decide⟩

/-- C9: if the merged overrides pass the dataset validation but contain
no `model` key, `kwargs.get('model')` is `None` and `os.path.exists(None)`
raises an uncaught `TypeError` at the checkpoint-detection step — a
`model` entry is an undocumented precondition of successful resolution. -/
theorem model_none_typeerror (env : Env) (args : List PyVal) (st : LoopState)
    (d : Dict) (h1 : loopResolve env args = .ok st) (h2 : mergePhase st = .ok d)
    (h3 : (hasKeyB d "dataset" || hasKeyB d "custom_train_dataset_path") = true)
    (h4 : dget? d "model" = none) :
    train env args = .error (.typeError "os.path.exists") := by
  have hds : (!hasKeyB d "dataset" && !hasKeyB d "custom_train_dataset_path") = false := by
    cases ha : hasKeyB d "dataset" <;> cases hb : hasKeyB d "custom_train_dataset_path" <;>
      simp_all
  have hcp : checkpointPhase env d = .error (.typeError "os.path.exists") := by
    simp [checkpointPhase, h4]
  simp [train, h1, h2, hds, hcp]

/-- Witness for C9: a submission with a dataset but an empty model field
crashes with the `TypeError` rather than a user-facing alert. -/
theorem model_none_typeerror_witness :
    train env0 argsNoModel = .error (.typeError "os.path.exists") :=
  model_none_typeerror env0 argsNoModel
    (okOr (loopResolve env0 argsNoModel) (loopInit env0))
    (okOr (mergePhase (okOr (loopResolve env0 argsNoModel) (loopInit env0))) [])
    (by rfl) (by rfl) (by decide) (by decide)

/- ## The mixed-device assertion (C5) -/

lemma devicePhase_assertOk (other : Dict) (r : List String × String × String)
    (h : devicePhase other = .ok r) : deviceAssertOk r.1 = true := by
  simp only [devicePhase] at h
  repeat' split at h
  all_goals first
    | (cases h; simp_all)
    | (cases h)

/-- C5: the submitted device selection satisfies the line-365 assertion
only when it has exactly one entry or no `"cpu"` entry: any selection of
more than one device including `"cpu"` fails the assertion, aborting the
submission; every successful `train` run reaches the device phase with a
filtered selection that is a singleton or cpu-free, and whenever `"cpu"`
is selected the device-visibility assignment is empty, so no built
command ever carries both a cpu and a numeric device entry in its
visibility variable. -/
theorem device_mixed_cpu_invariant :
    (∀ devices : List String, 1 < devices.length → devices.contains "cpu" = true →
      deviceAssertOk devices = false) ∧
    (∀ (other : Dict) (r : List String × String × String),
      devicePhase other = .ok r → deviceAssertOk r.1 = true) ∧
    (∀ (env : Env) (args : List PyVal) (res : TrainResult),
      train env args = .ok res →
      ∃ r : List String × String × String,
        devicePhase res.other_kwargs = .ok r ∧
        (r.1.length = 1 ∨ r.1.contains "cpu" = false) ∧
        (r.1.contains "cpu" = true → cudaParamOf env (joinComma r.1) = "")) := by
  refine ⟨?_, fun other r h => devicePhase_assertOk other r h, ?_⟩
  · intro devices h1 h2
    have hlen : ¬ devices.length = 1 := by omega
    simp only [deviceAssertOk, h2, Bool.not_true, Bool.or_false]
    simpa using hlen
  · intro env args res h
    cases h1 : loopResolve env args with
    | error e => simp [train, h1] at h
    | ok st =>
    cases h2 : mergePhase st with
    | error e => simp [train, h1, h2] at h
    | ok d =>
    by_cases hds : (!hasKeyB d "dataset" && !hasKeyB d "custom_train_dataset_path") = true
    · simp [train, h1, h2, hds] at h
    · rw [Bool.not_eq_true] at hds
      cases h3 : checkpointPhase env d with
      | error e => simp [train, h1, h2, hds, h3] at h
      | ok p =>
      obtain ⟨d2, modelVal⟩ := p
      cases h4 : ctorPhase env (deepspeedPhase d2 st.mpc).1 st.klist with
      | error e => simp [train, h1, h2, hds, h3, h4] at h
      | ok q =>
      obtain ⟨d4, sft⟩ := q
      cases h5 : buildParams env d4 st.klist (deepspeedPhase d2 st.mpc).2 sft with
      | error e => simp [train, h1, h2, hds, h3, h4, h5] at h
      | ok params =>
      cases h6 : devicePhase st.other with
      | error e => simp [train, h1, h2, hds, h3, h4, h5, h6] at h
      | ok r =>
      obtain ⟨devices, ddpParam, envsStr⟩ := r
      have hok := devicePhase_assertOk st.other (devices, ddpParam, envsStr) h6
      have hother : res.other_kwargs = st.other := by
        simp only [train, h1, h2, hds, Bool.false_eq_true, if_false, h3, h4, h5, h6] at h
        cases h
        rfl
      refine ⟨(devices, ddpParam, envsStr), by rw [hother]; exact h6, ?_, ?_⟩
      · simp only [deviceAssertOk] at hok
        cases hlen : (devices.length == 1) with
        | true => exact Or.inl (by simpa using hlen)
        | false =>
          rw [hlen, Bool.false_or] at hok
          exact Or.inr (by simpa using hok)
      · intro hcpu
        simp only [deviceAssertOk] at hok
        cases hlen : (devices.length == 1) with
        | false =>
          rw [hlen, Bool.false_or] at hok
          simp only [Bool.not_eq_true'] at hok
          exact absurd (by simpa using hcpu) (by simpa using hok)
        | true =>
          have hl1 : devices.length = 1 := by simpa using hlen
          match devices, hl1 with
          | [dv], _ =>
            have hd : "cpu" = dv := by simpa using hcpu
            cases hd
            simp [joinComma, cudaParamOf]

/-- Witness for C5: a successful run with device selection `["0"]`
reaches the device phase with a cpu-free singleton. -/
theorem device_mixed_cpu_invariant_witness :
    ∃ r : List String × String × String,
      devicePhase (okOr (train env0 args0) (TrainResult.mk "" sft0 [] none)).other_kwargs
          = .ok r ∧
      (r.1.length = 1 ∨ r.1.contains "cpu" = false) ∧
      (r.1.contains "cpu" = true → cudaParamOf env0 (joinComma r.1) = "") :=
  device_mixed_cpu_invariant.2.2 env0 args0
    (okOr (train env0 args0) (TrainResult.mk "" sft0 [] none)) (by rfl)

/- ## Free-form overrides: merge and fail-soft suffix (C7) -/

lemma buildParams_splits (env : Env) (d : Dict) (klist : List (String × Bool))
    (mpc : String) (sft : SftArgs) (p : String)
    (h : buildParams env d klist mpc sft = .ok p) :
    ∃ a b, p = a ++ mpc ++ b := by
  simp only [buildParams] at h
  split at h
  · cases h
  · cases h
    rename_i flags heq
    exact ⟨flags,
      " " ++ "--add_version False --output_dir " ++ sft.output_dir ++
        " --logging_dir " ++ sft.logging_dir ++ " --ignore_args_error True",
      by simp [String.append_assoc]⟩

lemma buildCommand_splits (env : Env)
    (cudaParam ddpParam envsStr cmdStage params logFile : String) :
    ∃ a b, buildCommand env cudaParam ddpParam envsStr cmdStage params logFile =
      a ++ params ++ b := by
  simp only [buildCommand]
  split
  · exact ⟨winEnvPrefix cudaParam ddpParam envsStr ++ "start /b swift sft ",
      " > " ++ logFile ++ " 2>&1", by simp [String.append_assoc]⟩
  · exact ⟨cudaParam ++ " " ++ ddpParam ++ " " ++ envsStr ++ " nohup swift " ++
      cmdStage ++ " ", " > " ++ logFile ++ " 2>&1 &", by simp [String.append_assoc]⟩

lemma deepspeedPhase_mpc_suffix (d : Dict) (mpc : String) :
    ∃ ds, (deepspeedPhase d mpc).2 = mpc ++ ds := by
  simp only [deepspeedPhase]
  split
  · rename_i v heq
    split
    · exact ⟨" --deepspeed " ++ pyStr v ++ " ", by simp [String.append_assoc]⟩
    · exact ⟨"", by simp⟩
  · exact ⟨"", by simp⟩

/-- C7: a non-empty free-form-overrides text that parses as a JSON object
is kept and merged over the explicit overrides by `dict.update` (the
free-form values winning on key collision); a text that fails to parse
raises no error — the raw text becomes the literal command suffix, and
every successful run's command string carries that suffix verbatim. -/
theorem freeform_overrides_policy :
    (∀ (env : Env) (st : LoopState) (rawv : PyVal) (s : String) (m : Dict),
      coerceValue rawv = .vStr s → ¬ s = "" → env.jsonParse s = .objRes m →
      ∃ st2, loopStep env st ("more_params", rawv) = .ok st2 ∧
        st2.moreParams = .objMP m ∧ st2.kwargs = st.kwargs ∧ st2.mpc = st.mpc) ∧
    (∀ (st : LoopState) (m : Dict), st.moreParams = .objMP m →
      mergePhase st = .ok (dupdate st.kwargs m)) ∧
    (∀ (d m : Dict) (k : String), (m.map Prod.fst).Nodup → hasKeyB m k = true →
      dget? (dupdate d m) k = dget? m k) ∧
    (∀ (env : Env) (st : LoopState) (rawv : PyVal) (s : String),
      coerceValue rawv = .vStr s → ¬ s = "" → env.jsonParse s = .parseFail →
      ∃ st2, loopStep env st ("more_params", rawv) = .ok st2 ∧
        st2.mpc = s ∧ st2.moreParams = st.moreParams ∧ st2.kwargs = st.kwargs) ∧
    (∀ (env : Env) (args : List PyVal) (st : LoopState) (res : TrainResult),
      loopResolve env args = .ok st → train env args = .ok res →
      ∃ pre post, res.run_command = pre ++ st.mpc ++ post) := by
  have hb : ∀ (env : Env) s, explicitCond env "more_params" (.vStr s) = false := by
    intro env s
    simp [explicitCond, ignoreElements]
  refine ⟨?_, ?_, ?_, ?_, ?_⟩
  · intro env st rawv s m hv hs hj
    refine ⟨{ bucketStep env st "more_params" (.vStr s) with moreParams := .objMP m },
      ?_, rfl, ?_, ?_⟩
    · have hmp : mpStep env (bucketStep env st "more_params" (.vStr s))
          "more_params" (.vStr s) =
          .ok { bucketStep env st "more_params" (.vStr s) with moreParams := .objMP m } := by
        simp [mpStep, hj, PyVal.truthy, hs]
      simp only [loopStep, hv]
      rw [hmp]
      simp [tsStep]
    · simp [bucketStep, hb env s]
    · simp [bucketStep, hb env s]
  · intro st m h
    simp [mergePhase, h]
  · intro d m k hm hk
    rw [dget?_dupdate d m k hm, if_pos hk]
  · intro env st rawv s hv hs hj
    refine ⟨{ bucketStep env st "more_params" (.vStr s) with mpc := s }, ?_, rfl, ?_, ?_⟩
    · have hmp : mpStep env (bucketStep env st "more_params" (.vStr s))
          "more_params" (.vStr s) =
          .ok { bucketStep env st "more_params" (.vStr s) with mpc := s } := by
        simp [mpStep, hj, PyVal.truthy, hs]
      simp only [loopStep, hv]
      rw [hmp]
      simp [tsStep]
    · simp [bucketStep, hb env s]
    · simp [bucketStep, hb env s]
  · intro env args st res h1 h
    cases h2 : mergePhase st with
    | error e => simp [train, h1, h2] at h
    | ok d =>
    by_cases hds : (!hasKeyB d "dataset" && !hasKeyB d "custom_train_dataset_path") = true
    · simp [train, h1, h2, hds] at h
    · rw [Bool.not_eq_true] at hds
      cases h3 : checkpointPhase env d with
      | error e => simp [train, h1, h2, hds, h3] at h
      | ok p =>
      obtain ⟨d2, modelVal⟩ := p
      cases h4 : ctorPhase env (deepspeedPhase d2 st.mpc).1 st.klist with
      | error e => simp [train, h1, h2, hds, h3, h4] at h
      | ok q =>
      obtain ⟨d4, sft⟩ := q
      cases h5 : buildParams env d4 st.klist (deepspeedPhase d2 st.mpc).2 sft with
      | error e => simp [train, h1, h2, hds, h3, h4, h5] at h
      | ok params =>
      cases h6 : devicePhase st.other with
      | error e => simp [train, h1, h2, hds, h3, h4, h5, h6] at h
      | ok r =>
      obtain ⟨devices, ddpParam, envsStr⟩ := r
      have hrun : res.run_command =
          buildCommand env (cudaParamOf env (joinComma devices)) ddpParam envsStr
            (pyStr st.trainStage) params (sft.logging_dir ++ "/run.log") := by
        simp only [train, h1, h2, hds, Bool.false_eq_true, if_false, h3, h4, h5, h6] at h
        cases h
        rfl
      obtain ⟨a, b, hab⟩ :=
        buildParams_splits env d4 st.klist (deepspeedPhase d2 st.mpc).2 sft params h5
      obtain ⟨ds, hds2⟩ := deepspeedPhase_mpc_suffix d2 st.mpc
      obtain ⟨A, B, hAB⟩ := buildCommand_splits env (cudaParamOf env (joinComma devices))
        ddpParam envsStr (pyStr st.trainStage) params (sft.logging_dir ++ "/run.log")
      refine ⟨A ++ a, ds ++ b ++ B, ?_⟩
      rw [hrun, hAB, hab, hds2]
      simp [String.append_assoc]

/-- Witness for C7: submitting the free-form text `not-json` (which
`env0.jsonParse` rejects) leaves the text verbatim inside the built
command string. -/
theorem freeform_overrides_policy_witness :
    ∃ pre post, (okOr (train env0 argsNotJson) (TrainResult.mk "" sft0 [] none)).run_command
      = pre ++ "not-json" ++ post := by
  have h := freeform_overrides_policy.2.2.2.2 env0 argsNotJson
    (okOr (loopResolve env0 argsNotJson) (loopInit env0))
    (okOr (train env0 argsNotJson) (TrainResult.mk "" sft0 [] none)) (by rfl) (by rfl)
  have hmpc : (okOr (loopResolve env0 argsNotJson) (loopInit env0)).mpc = "not-json" := by
    decide
  rw [hmpc] at h
  exact h

end LLMTrain
